import Mathlib

set_option maxHeartbeats 1000000

/-!
Shallow embedding, in Lean 4, of the request-to-artifact control path of the
post-generator repository: the cache gate and request handlers of `app.py`
and the retry / rate-limit / post-processing layer of `generate_posts.py`.

Python strings are modelled as Lean `String` (with the underlying
`List Char` doing the work); wall-clock times and token counts are `ℚ`
(Python floats carry no rounding relevant to any claim here); the cache
directory is a map `String → Option (ℚ × T)` from file path to
(mtime, payload); fallible collaborators return `Except String`.
Newline handling models the `"\n"` line terminator, the only one the
program itself produces.
-/

/-- Python's whitespace set for `str.strip` / `str.split`. -/
def isWS (c : Char) : Bool :=
  c = ' ' || c = '\t' || c = '\n' || c = '\r' || c = '\x0b' || c = '\x0c'

/-- Remove trailing whitespace (`str.rstrip`). -/
def dropTrailWS (l : List Char) : List Char :=
  (l.reverse.dropWhile isWS).reverse

/-- Remove leading and trailing whitespace (`str.strip`). -/
def stripCL (l : List Char) : List Char :=
  dropTrailWS (l.dropWhile isWS)

/-- `str.strip` lifted to `String`. -/
def pyStrip (s : String) : String :=
  ⟨stripCL s.data⟩

/-- Worker for `str.splitlines`: `acc` is the current line, reversed.
A trailing newline produces no final empty line, as in Python. -/
def splitlinesAux : List Char → List Char → List (List Char)
  | [], acc => [acc.reverse]
  | c :: rest, acc =>
    if c = '\n' then
      match rest with
      | [] => [acc.reverse]
      | _ :: _ => acc.reverse :: splitlinesAux rest []
    else splitlinesAux rest (c :: acc)

/-- Python's `str.splitlines` restricted to the `"\n"` terminator;
`"".splitlines() == []`. -/
def splitCL (l : List Char) : List (List Char) :=
  if l = [] then [] else splitlinesAux l []

/-- Python's `"\n".join`. -/
def joinNL : List (List Char) → List Char
  | [] => []
  | [l] => l
  | l :: ls => l ++ '\n' :: joinNL ls

/-- Python's `sep.join` for a one-character separator (used with a space). -/
def joinSep (sep : Char) : List (List Char) → List Char
  | [] => []
  | [l] => l
  | l :: ls => l ++ sep :: joinSep sep ls

/-- Worker for `str.split()` with no separator: split on whitespace runs,
dropping empty words; `acc` is the current word, reversed. -/
def wordsAux : List Char → List Char → List (List Char)
  | [], acc => if acc = [] then [] else [acc.reverse]
  | c :: rest, acc =>
    if isWS c then
      if acc = [] then wordsAux rest [] else acc.reverse :: wordsAux rest []
    else wordsAux rest (c :: acc)

/-- Python's `str.split()` (no argument form). -/
def wordsCL (l : List Char) : List (List Char) :=
  wordsAux l []

/-- Python's `str.capitalize`: first character upper-cased, the rest lowered. -/
def capitalizeCL : List Char → List Char
  | [] => []
  | c :: cs => c.toUpper :: cs.map Char.toLower

/-! ## `generate_posts.py` — post-processing (lines 124-132 and 172-183) -/

/-- The loop body of `deduplicate_text` (`generate_posts.py` lines 126-131):
strip each line, keep it when non-blank and not seen before. -/
def dedupLines (seen : List (List Char)) : List (List Char) → List (List Char)
  | [] => []
  | line :: rest =>
    let clean := stripCL line
    if clean ≠ [] ∧ clean ∉ seen then clean :: dedupLines (clean :: seen) rest
    else dedupLines seen rest

/-- `deduplicate_text` (`generate_posts.py` lines 124-132) on the character
list: split into lines, strip-filter-dedup them, rejoin and strip. -/
def deduplicate_textCL (t : List Char) : List Char :=
  stripCL (joinNL (dedupLines [] (splitCL t)))

/-- `deduplicate_text` on `String`. -/
def deduplicate_text (text : String) : String :=
  ⟨deduplicate_textCL text.data⟩

/-- Test of `line.strip().startswith("#")` (`generate_posts.py` line 176). -/
def startsWithHashtag (l : List Char) : Bool :=
  match stripCL l with
  | '#' :: _ => true
  | _ => false

/-- Line 176 of `generate_posts.py`: drop every line whose stripped form
starts with `#`, rejoin the rest with newlines. -/
def hashFreeBody (post : List Char) : List Char :=
  joinNL ((splitCL post).filter (fun l => !startsWithHashtag l))

/-- Lines 177-178 of `generate_posts.py`: at most three keywords longer than
three characters from the idea text, capitalized, `#`-prefixed, joined by
spaces. -/
def hashtagsOf (idea : List Char) : List Char :=
  joinSep ' '
    ((((wordsCL idea).filter (fun w => 3 < w.length)).take 3).map
      (fun w => '#' :: capitalizeCL w))

/-- The fixed closing prompt appended at line 182 of `generate_posts.py`
(including its `"\n\n"` separator). -/
def closing_prompt : List Char :=
  ('\n' :: '\n' :: ("What do you think?").data)

/-- Lines 179-180 of `generate_posts.py`: append the keyword-hashtag line
(with a blank separator line) when any keyword was derived. -/
def withHashtags (body hashtags : List Char) : List Char :=
  if hashtags = [] then body else body ++ '\n' :: '\n' :: hashtags

/-- Lines 181-182 of `generate_posts.py`: append the closing prompt when no
`?` occurs anywhere in the text. -/
def withClosing (post : List Char) : List Char :=
  if '?' ∈ post then post else post ++ closing_prompt

/-- `apply_post_processing` (`generate_posts.py` lines 172-183) on the
character list. An empty post is returned unchanged (lines 174-175);
otherwise: strip hashtag lines, append derived hashtags, append the closing
prompt if no `?` remains, and strip the result. -/
def apply_post_processingCL (post idea : List Char) : List Char :=
  if post = [] then post
  else stripCL (withClosing (withHashtags (hashFreeBody post) (hashtagsOf idea)))

/-- `apply_post_processing` on `String`. -/
def apply_post_processing (post idea : String) : String :=
  ⟨apply_post_processingCL post.data idea.data⟩

/-- The normalization pipeline of `generate_linkedin_post`
(`generate_posts.py` lines 199-200): `deduplicate_text` then
`apply_post_processing`; the spec's `PostNormalizer.normalize`. -/
def normalizeCL (t idea : List Char) : List Char :=
  apply_post_processingCL (deduplicate_textCL t) idea

/-- `PostNormalizer.normalize` on `String`. -/
def normalize_post (text idea : String) : String :=
  ⟨normalizeCL text.data idea.data⟩

/-! ## `generate_posts.py` — rate limiter (lines 93-110) -/

/-- The token-bucket state of `RateLimiter.__init__`
(`generate_posts.py` lines 94-96): refill rate, capacity (burst),
current token count, and time of the last refill. -/
structure RateLimiter where
  rate : ℚ
  capacity : ℚ
  tokens : ℚ
  last : ℚ

/-- The lazy refill computed at line 102 of `generate_posts.py`:
`min(self.capacity, self.tokens + elapsed * self.rate)` where
`elapsed = now - self.last`; the source does not clamp a negative
`elapsed`. -/
def RateLimiter.refill (rl : RateLimiter) (now : ℚ) : ℚ :=
  min rl.capacity (rl.tokens + (now - rl.last) * rl.rate)

/-- `RateLimiter.acquire` (`generate_posts.py` lines 98-108) as a pure state
transformer: returns the new limiter state and the seconds slept. -/
def RateLimiter.acquire (rl : RateLimiter) (now : ℚ) : RateLimiter × ℚ :=
  let tokens := rl.refill now
  if tokens < 1 then
    ({ rl with tokens := 0, last := now }, (1 - tokens) / rl.rate)
  else
    ({ rl with tokens := tokens - 1, last := now }, 0)

/-- The module-level limiter of `generate_posts.py` line 110:
`RateLimiter(1.0, 3)` constructed at time `t0`. -/
def limiter_init (t0 : ℚ) : RateLimiter :=
  ⟨1, 3, 3, t0⟩

/-! ## `generate_posts.py` — retrying caller (lines 158-169) -/

/-- Outcome of one `model.generate_content` call: a response, one of the
two transient-overload exceptions caught at line 164, or any other
exception (line 166). -/
inductive AttemptResult (R : Type) where
  | success (r : R)
  | resourceExhausted
  | tooManyRequests
  | permanent (e : String)

/-- Whether an outcome is one of the two transient-overload exception kinds
(`ResourceExhausted`, `TooManyRequests`). -/
def isTransient {R : Type} : AttemptResult R → Bool
  | .resourceExhausted => true
  | .tooManyRequests => true
  | _ => false

/-- The `for attempt in range(max_retries)` loop of `_generate_with_retries`
(`generate_posts.py` lines 161-168), with the outcome of each attempt given
by `outcome` and `random.random()` by `rand`. Returns the value returned
(`None` when the loop ends or breaks), the number of attempts actually made,
and the list of backoff sleeps `2**attempt + random.random()` performed. -/
def retryLoop {R : Type} (outcome : Nat → AttemptResult R) (rand : Nat → ℚ) :
    Nat → Nat → Option R × Nat × List ℚ
  | 0, _ => (none, 0, [])
  | Nat.succ n, i =>
    match outcome i with
    | .success r => (some r, 1, [])
    | .resourceExhausted =>
      let rest := retryLoop outcome rand n (i + 1)
      (rest.1, rest.2.1 + 1, ((2 : ℚ) ^ i + rand i) :: rest.2.2)
    | .tooManyRequests =>
      let rest := retryLoop outcome rand n (i + 1)
      (rest.1, rest.2.1 + 1, ((2 : ℚ) ^ i + rand i) :: rest.2.2)
    | .permanent _ => (none, 1, [])

/-- The backoff sleeps produced by `max_retries` consecutive transient
failures starting at attempt index `i`. -/
def sleepList (rand : Nat → ℚ) : Nat → Nat → List ℚ
  | _, 0 => []
  | i, Nat.succ n => ((2 : ℚ) ^ i + rand i) :: sleepList rand (i + 1) n

/-- Observable trace of one `_generate_with_retries` call. -/
structure RetryTrace (R : Type) where
  limiterAcquires : Nat
  result : Option R
  attempts : Nat
  sleeps : List ℚ

/-- `_generate_with_retries` (`generate_posts.py` lines 158-169):
`limiter.acquire()` is called exactly once, at line 159, before the
attempt loop. -/
def generate_with_retries {R : Type} (outcome : Nat → AttemptResult R)
    (rand : Nat → ℚ) (max_retries : Nat := 4) : RetryTrace R :=
  let t := retryLoop outcome rand max_retries 0
  { limiterAcquires := 1, result := t.1, attempts := t.2.1, sleeps := t.2.2 }

/-- The module-level key check of `generate_posts.py` lines 23-28: importing
the module reads `GEMINI_API_KEY` and calls `sys.exit(1)` when it is unset
(or empty, since `if not GEMINI_API_KEY` also fires on `""`). -/
def generate_posts_module_init (getenv : String → Option String) : Except Nat Unit :=
  match getenv ("GEMINI_API_KEY") with
  | none => .error 1
  | some key => if key = "" then .error 1 else .ok ()

/-! ## `app.py` — cache utilities (lines 35-60) -/

/-- `CACHE_DURATION_HOURS` (`app.py` line 36). -/
def CACHE_DURATION_HOURS : ℚ := 24

/-- `get_cache_path` (`app.py` lines 43-46): keep alphanumerics, spaces and
underscores, right-strip, replace spaces by underscores, lower-case, and
place under the `cache/` directory with a `.json` suffix. -/
def get_cache_path (profile_name : String) : String :=
  let safe_filename :=
    dropTrailWS (profile_name.data.filter (fun c => c.isAlphanum || c = ' ' || c = '_'))
  ⟨("cache/").data ++
    ((safe_filename.map (fun c => if c = ' ' then '_' else c)).map Char.toLower) ++
    (".json").data⟩

/-- `get_cache_age_hours` (`app.py` lines 49-54) over the cache-directory
map `cache : path → Option (mtime, payload)`: `None` when the file is
absent, otherwise `(time.time() - mtime) / 3600`. -/
def get_cache_age_hours {T : Type} (cache : String → Option (ℚ × T)) (now : ℚ)
    (path : String) : Option ℚ :=
  match cache path with
  | none => none
  | some (mtime, _) => some ((now - mtime) / 3600)

/-- `is_cache_valid` (`app.py` lines 57-60): the age exists and is strictly
below `CACHE_DURATION_HOURS`. -/
def is_cache_valid {T : Type} (cache : String → Option (ℚ × T)) (now : ℚ)
    (path : String) : Bool :=
  match get_cache_age_hours cache now path with
  | none => false
  | some age => age < CACHE_DURATION_HOURS

/-! ## `app.py` — the generate endpoint (lines 117-158) -/

/-- An HTTP reply of the Flask handlers: a 200 success payload, a 400
`Missing required fields` reply, or a 500 reply carrying the exception
text caught by the handler's `except` block. -/
inductive ApiResp (α : Type) where
  | ok (v : α)
  | badRequest (e : String)
  | serverError (e : String)

/-- Whether a reply is the 200 success case. -/
def ApiResp.isOk {α : Type} : ApiResp α → Bool
  | .ok _ => true
  | _ => false

/-- The `meta` object built at `app.py` lines 149-153. Its third field is
named `generation_time` in the source, not `generation_time_seconds`. -/
structure MetaObj where
  used_cache : Bool
  cache_age_hours : Option ℚ
  generation_time : ℚ

/-- The keys of the `meta` dict literal at `app.py` lines 149-153, in
source order. -/
def meta_keys : List String :=
  ["used_cache", "cache_age_hours", "generation_time"]

/-- External collaborators and ambient state of one `/api/generate` request:
the wall clock, the cache directory, and the two collaborator calls of the
rebuild path that do resolve (`s2.scrape_profile_posts`,
`build_index.build_index`). `P` is the scraped-posts type, `T` the trained
payload. -/
structure GenEnv (P T : Type) where
  now : ℚ
  cache : String → Option (ℚ × T)
  scrape : String → Except String P
  buildIndex : P → Except String Unit

/-- The exception text of the `AttributeError` raised at `app.py` line 143:
`train_model` defines only `PostTrainer` and `main`, no module-level
`train`. -/
def train_attribute_error : String :=
  "AttributeError: module train_model has no attribute train"

/-- The exception text of the `AttributeError` raised at `app.py` line 148:
`generate_posts` defines `generate_linkedin_post`, not `create_post`. -/
def create_post_attribute_error : String :=
  "AttributeError: module generate_posts has no attribute create_post"

/-- The rebuild path of `app.py` lines 141-143: scrape, build the index,
then call `train_model.train(posts)` — an attribute that does not exist,
so the step raises before any training or cache write happens. -/
def generate_rebuild {P T : Type} (env : GenEnv P T) (profile_url : String) :
    Except String T :=
  match env.scrape profile_url with
  | .error e => .error e
  | .ok posts =>
    match env.buildIndex posts with
    | .error e => .error e
    | .ok _ => .error train_attribute_error

/-- The cache gate of `app.py` lines 131-145 (the spec's
`CacheGate.resolve`), parameterized by the rebuild computation: on a valid
cache (no force-refresh, age below TTL) the stored payload is loaded;
otherwise the rebuild runs and, only on its success, its result is written
to the cache file with the current time as mtime. Returns the reply
component and the cache directory after the call. -/
def cache_resolve {T : Type} (cache : String → Option (ℚ × T)) (now : ℚ)
    (cache_file : String) (force_refresh : Bool) (rb : Except String T) :
    Except String (T × Bool) × (String → Option (ℚ × T)) :=
  if force_refresh = false ∧ is_cache_valid cache now cache_file = true then
    match cache cache_file with
    | some (_, t) => (.ok (t, true), cache)
    -- unreachable: `is_cache_valid` implies the entry exists
    | none => (.error ("FileNotFoundError"), cache)
  else
    match rb with
    | .error e => (.error e, cache)
    | .ok t => (.ok (t, false), fun p => if p = cache_file then some (now, t) else cache p)

/-- The `/api/generate` handler (`app.py` lines 117-158): trim the three
fields, reply 400 when any is empty, run the cache gate, and then call
`generate_posts.create_post(criteria, trained_data)` — an attribute that
does not exist, so line 148 raises `AttributeError` and the handler's
`except` block replies 500. The success reply with the `meta` object
(lines 149-154) is unreachable. -/
def generate {P T : Type} (env : GenEnv P T)
    (profileUrl profileName criteria : String) (forceRefresh : Bool) :
    ApiResp (String × MetaObj) × (String → Option (ℚ × T)) :=
  if pyStrip profileUrl = "" ∨ pyStrip profileName = "" ∨ pyStrip criteria = "" then
    (.badRequest ("Missing required fields"), env.cache)
  else
    match cache_resolve env.cache env.now (get_cache_path (pyStrip profileName)) forceRefresh
        (generate_rebuild env (pyStrip profileUrl)) with
    | (.ok _, cache2) => (.serverError create_post_attribute_error, cache2)
    | (.error e, cache2) => (.serverError e, cache2)

/-- The `/api/cache-status` handler (`app.py` lines 81-98): trim the name,
reply 400 when empty, else reply with `cached = (age is not None)` and the
age itself — no TTL comparison is involved. -/
def cache_status {T : Type} (cache : String → Option (ℚ × T)) (now : ℚ)
    (profileName : String) : ApiResp (Bool × Option ℚ) :=
  if pyStrip profileName = "" then .badRequest ("Missing profile name")
  else
    .ok ((get_cache_age_hours cache now (get_cache_path (pyStrip profileName))).isSome,
      get_cache_age_hours cache now (get_cache_path (pyStrip profileName)))

/-- The module-level imports of `app.py` (lines 14-18): loading the web
application imports `generate_posts`, whose key check runs at import time;
a `sys.exit(1)` there aborts the process before any route is registered. -/
def app_module_init (getenv : String → Option String) : Except Nat Unit :=
  match generate_posts_module_init getenv with
  | .error code => .error code
  | .ok _ => .ok ()

/-! ## Concrete instances used by witnesses and counterexamples -/

/-- A request environment whose collaborators all succeed and whose cache
directory is empty. -/
def env₀ : GenEnv Nat Nat where
  now := 0
  cache := fun _ => none
  scrape := fun _ => .ok 0
  buildIndex := fun _ => .ok ()

/-- A cache directory holding one entry for profile `Jane Doe`, written at
time 0 with payload 42. -/
def cache₁ : String → Option (ℚ × Nat) :=
  fun p => if p = "cache/jane_doe.json" then some (0, 42) else none

/-! ## Lemmas about the string primitives -/

/-- Every list splits as its right-stripped part followed by whitespace. -/
theorem dropTrailWS_decomp (l : List Char) :
    ∃ w, l = dropTrailWS l ++ w ∧ ∀ c ∈ w, isWS c = true := by
  refine ⟨(l.reverse.takeWhile isWS).reverse, ?_, ?_⟩
  · conv_lhs => rw [← l.reverse_reverse, ← List.takeWhile_append_dropWhile isWS l.reverse]
    rw [List.reverse_append]
    rfl
  · intro c hc
    rw [List.mem_reverse] at hc
    exact List.mem_takeWhile_imp hc

/-- Every list splits as whitespace followed by its left-stripped part. -/
theorem dropWhileWS_decomp (l : List Char) :
    ∃ w, l = w ++ l.dropWhile isWS ∧ ∀ c ∈ w, isWS c = true :=
  ⟨l.takeWhile isWS, (List.takeWhile_append_dropWhile isWS l).symm,
    fun _ hc => List.mem_takeWhile_imp hc⟩

/-- Every list is whitespace, its stripped core, then whitespace. -/
theorem stripCL_decomp (l : List Char) :
    ∃ w₁ w₂, l = w₁ ++ stripCL l ++ w₂ ∧ (∀ c ∈ w₁, isWS c = true) ∧
      (∀ c ∈ w₂, isWS c = true) := by
  obtain ⟨w₁, h1, hw1⟩ := dropWhileWS_decomp l
  obtain ⟨w₂, h2, hw2⟩ := dropTrailWS_decomp (l.dropWhile isWS)
  refine ⟨w₁, w₂, ?_, hw1, hw2⟩
  rw [List.append_assoc]
  rw [show dropTrailWS (l.dropWhile isWS) = stripCL l from rfl] at h2
  rw [← h2]
  exact h1

/-- A non-whitespace character of a list survives `stripCL`. -/
theorem mem_stripCL (c : Char) (l : List Char) (hc : isWS c = false) (h : c ∈ l) :
    c ∈ stripCL l := by
  obtain ⟨w₁, w₂, hdec, hw1, hw2⟩ := stripCL_decomp l
  rw [hdec, List.mem_append, List.mem_append] at h
  rcases h with (h' | h') | h'
  · rw [hw1 c h'] at hc; cases hc
  · exact h'
  · rw [hw2 c h'] at hc; cases hc

/-- `stripCL` only drops characters. -/
theorem stripCL_sublist (l : List Char) : List.Sublist (stripCL l) l := by
  have h1 : List.Sublist (l.dropWhile isWS) l := List.dropWhile_sublist isWS
  have h2 : List.Sublist ((l.dropWhile isWS).reverse.dropWhile isWS)
      (l.dropWhile isWS).reverse := List.dropWhile_sublist isWS
  have h3 := h2.reverse
  rw [List.reverse_reverse] at h3
  exact h3.trans h1

/-- The head of a `dropWhile` result fails the predicate. -/
theorem head_dropWhile_false (p : Char → Bool) (l : List Char) (c : Char)
    (t : List Char) (h : l.dropWhile p = c :: t) : p c = false := by
  induction l with
  | nil => simp [List.dropWhile] at h
  | cons a l ih =>
    by_cases ha : p a = true
    · rw [List.dropWhile_cons_of_pos ha] at h
      exact ih h
    · rw [List.dropWhile_cons_of_neg ha] at h
      injection h with h1 _
      subst h1
      simpa using ha

/-- The first character of a stripped list is not whitespace. -/
theorem stripCL_head (l : List Char) (c : Char) (t : List Char)
    (h : stripCL l = c :: t) : isWS c = false := by
  obtain ⟨w, hx, _⟩ := dropTrailWS_decomp (l.dropWhile isWS)
  rw [show dropTrailWS (l.dropWhile isWS) = stripCL l from rfl, h] at hx
  exact head_dropWhile_false isWS l c (t ++ w) (by rw [hx]; simp)

/-- The last character of a stripped list is not whitespace. -/
theorem stripCL_getLast (l : List Char) (c : Char)
    (h : (stripCL l).getLast? = some c) : isWS c = false := by
  have h2 := h
  rw [show stripCL l = ((l.dropWhile isWS).reverse.dropWhile isWS).reverse from rfl,
    List.getLast?_reverse] at h2
  cases hdw : (l.dropWhile isWS).reverse.dropWhile isWS with
  | nil => rw [hdw] at h2; simp at h2
  | cons a t =>
    rw [hdw] at h2
    simp only [List.head?_cons, Option.some.injEq] at h2
    subst h2
    exact head_dropWhile_false isWS _ a t hdw

/-- A list whose first and last characters are not whitespace is fixed by
`stripCL`. -/
theorem stripCL_eq_self (l : List Char)
    (hh : ∀ c, l.head? = some c → isWS c = false)
    (hl : ∀ c, l.getLast? = some c → isWS c = false) : stripCL l = l := by
  have h1 : l.dropWhile isWS = l := by
    cases l with
    | nil => rfl
    | cons a t =>
      rw [List.dropWhile_cons_of_neg]
      simp [hh a rfl]
  rw [stripCL, h1]
  have h2 : l.reverse.dropWhile isWS = l.reverse := by
    cases hrev : l.reverse with
    | nil => rfl
    | cons a t =>
      rw [List.dropWhile_cons_of_neg]
      have ha : l.getLast? = some a := by
        rw [← List.head?_reverse, hrev]; rfl
      simp [hl a ha]
  rw [dropTrailWS, h2, List.reverse_reverse]

/-- Stripping is idempotent. -/
theorem stripCL_idem (l : List Char) : stripCL (stripCL l) = stripCL l := by
  apply stripCL_eq_self
  · intro c hc
    cases hs : stripCL l with
    | nil => rw [hs] at hc; cases hc
    | cons a t =>
      rw [hs] at hc
      simp only [List.head?_cons, Option.some.injEq] at hc
      subst hc
      exact stripCL_head l a t hs
  · intro c hc
    exact stripCL_getLast l c hc

/-- Joining a non-empty first line gives a non-empty text. -/
theorem joinNL_ne_nil (l : List Char) (ls : List (List Char)) (h : l ≠ []) :
    joinNL (l :: ls) ≠ [] := by
  cases ls with
  | nil => simpa [joinNL] using h
  | cons m ms => simp [joinNL]

/-- The head of a joined text is the head of its first line. -/
theorem joinNL_head? (l : List Char) (ls : List (List Char)) (h : l ≠ []) :
    (joinNL (l :: ls)).head? = l.head? := by
  cases ls with
  | nil => rfl
  | cons m ms =>
    show (l ++ '\n' :: joinNL (m :: ms)).head? = l.head?
    cases l with
    | nil => exact absurd rfl h
    | cons a t => rfl

/-- The last character of a joined text is the last character of one of its
lines, provided all lines are non-empty. -/
theorem joinNL_getLast? (ls : List (List Char)) (h : ∀ a ∈ ls, a ≠ [])
    (hne : ls ≠ []) : ∃ a ∈ ls, (joinNL ls).getLast? = a.getLast? := by
  induction ls with
  | nil => exact absurd rfl hne
  | cons l ms ih =>
    cases ms with
    | nil => exact ⟨l, by simp, rfl⟩
    | cons m ms2 =>
      obtain ⟨a, ha, heq⟩ := ih (fun x hx => h x (List.mem_cons_of_mem _ hx)) (by simp)
      refine ⟨a, List.mem_cons_of_mem _ ha, ?_⟩
      show (l ++ '\n' :: joinNL (m :: ms2)).getLast? = a.getLast?
      rw [List.getLast?_append_of_ne_nil l (by simp)]
      have hnn : joinNL (m :: ms2) ≠ [] := joinNL_ne_nil m ms2 (h m (by simp))
      rw [show ('\n' :: joinNL (m :: ms2)) = ['\n'] ++ joinNL (m :: ms2) from rfl,
        List.getLast?_append_of_ne_nil _ hnn]
      exact heq

/-- A join of stripped non-empty lines is itself stripped. -/
theorem strip_joinNL (ls : List (List Char))
    (h : ∀ l ∈ ls, stripCL l = l ∧ l ≠ []) :
    stripCL (joinNL ls) = joinNL ls := by
  cases ls with
  | nil => rfl
  | cons l ms =>
    apply stripCL_eq_self
    · intro c hc
      rw [joinNL_head? l ms (h l (by simp)).2] at hc
      have hl := h l (by simp)
      cases hx : l with
      | nil => rw [hx] at hc; cases hc
      | cons a t =>
        rw [hx] at hc
        simp only [List.head?_cons, Option.some.injEq] at hc
        subst hc
        exact stripCL_head l a t (hl.1.trans hx)
    · intro c hc
      obtain ⟨a, ha, heq⟩ :=
        joinNL_getLast? (l :: ms) (fun x hx => (h x hx).2) (by simp)
      rw [heq] at hc
      have hstr := (h a ha).1
      exact stripCL_getLast a c (by rw [hstr]; exact hc)

/-- `splitlinesAux` on newline-free input yields a single line. -/
theorem splitlinesAux_no_newline (l : List Char) :
    ∀ acc, '\n' ∉ l → splitlinesAux l acc = [acc.reverse ++ l] := by
  induction l with
  | nil => intro acc _; simp [splitlinesAux]
  | cons c t ih =>
    intro acc h
    have hc : ¬(c = '\n') := fun hceq => h (by rw [hceq]; simp)
    simp only [splitlinesAux]
    rw [if_neg hc, ih (c :: acc) (fun hm => h (List.mem_cons_of_mem _ hm))]
    simp

/-- `splitlinesAux` splits at the first newline when the tail is non-empty. -/
theorem splitlinesAux_split (l l' : List Char) (h' : l' ≠ []) :
    ∀ acc, '\n' ∉ l →
      splitlinesAux (l ++ '\n' :: l') acc = (acc.reverse ++ l) :: splitlinesAux l' [] := by
  induction l with
  | nil =>
    intro acc _
    cases l' with
    | nil => exact absurd rfl h'
    | cons a t =>
      show splitlinesAux ('\n' :: a :: t) acc = (acc.reverse ++ []) :: splitlinesAux (a :: t) []
      rw [List.append_nil]
      rfl
  | cons c t ih =>
    intro acc h
    have hc : ¬(c = '\n') := fun hceq => h (by rw [hceq]; simp)
    show splitlinesAux (c :: (t ++ '\n' :: l')) acc = (acc.reverse ++ c :: t) :: splitlinesAux l' []
    rw [show splitlinesAux (c :: (t ++ '\n' :: l')) acc
        = splitlinesAux (t ++ '\n' :: l') (c :: acc) from by
      simp only [splitlinesAux]
      rw [if_neg hc]]
    rw [ih (c :: acc) (fun hm => h (List.mem_cons_of_mem _ hm))]
    simp

/-- Splitting a join of non-empty newline-free lines recovers the lines. -/
theorem splitCL_joinNL (ls : List (List Char))
    (h : ∀ l ∈ ls, l ≠ [] ∧ '\n' ∉ l) : splitCL (joinNL ls) = ls := by
  induction ls with
  | nil => rfl
  | cons l ms ih =>
    cases ms with
    | nil =>
      show splitCL l = [l]
      have hl := h l (by simp)
      rw [splitCL, if_neg hl.1, splitlinesAux_no_newline l [] hl.2]
      simp
    | cons m ms2 =>
      show splitCL (l ++ '\n' :: joinNL (m :: ms2)) = l :: m :: ms2
      have hl := h l (by simp)
      have hjne : joinNL (m :: ms2) ≠ [] := joinNL_ne_nil m ms2 (h m (by simp)).1
      rw [splitCL, if_neg (by simp)]
      rw [splitlinesAux_split l (joinNL (m :: ms2)) hjne [] hl.2]
      simp only [List.reverse_nil, List.nil_append]
      congr 1
      have hms := ih (fun x hx => h x (List.mem_cons_of_mem _ hx))
      rw [splitCL, if_neg hjne] at hms
      exact hms

/-- Every line produced by `splitlinesAux` is newline-free when the
accumulator is. -/
theorem splitlinesAux_mem_no_newline (l : List Char) :
    ∀ acc, '\n' ∉ acc → ∀ x ∈ splitlinesAux l acc, '\n' ∉ x := by
  induction l with
  | nil =>
    intro acc hacc x hx
    simp only [splitlinesAux, List.mem_singleton] at hx
    subst hx
    simpa using hacc
  | cons c t ih =>
    intro acc hacc x hx
    simp only [splitlinesAux] at hx
    by_cases hc : c = '\n'
    · rw [if_pos hc] at hx
      cases t with
      | nil =>
        simp only [List.mem_singleton] at hx
        subst hx
        simpa using hacc
      | cons a r =>
        rcases List.mem_cons.1 hx with hx | hx
        · subst hx; simpa using hacc
        · exact ih [] (by simp) x hx
    · rw [if_neg hc] at hx
      refine ih (c :: acc) ?_ x hx
      intro hm
      rcases List.mem_cons.1 hm with hm | hm
      · exact hc hm.symm
      · exact hacc hm

/-- Every line of a split text is newline-free. -/
theorem splitCL_no_newline (t : List Char) : ∀ x ∈ splitCL t, '\n' ∉ x := by
  intro x hx
  rw [splitCL] at hx
  split at hx
  · cases hx
  · exact splitlinesAux_mem_no_newline t [] (by simp) x hx

/-- The kept lines of `dedupLines`: pairwise distinct, outside `seen`,
non-empty, and each the stripped form of an input line. -/
theorem dedupLines_spec (rest : List (List Char)) :
    ∀ seen, (dedupLines seen rest).Nodup ∧
      ∀ l ∈ dedupLines seen rest,
        l ∉ seen ∧ l ≠ [] ∧ ∃ l₀ ∈ rest, l = stripCL l₀ := by
  induction rest with
  | nil => intro seen; simp [dedupLines]
  | cons line rs ih =>
    intro seen
    simp only [dedupLines]
    by_cases hc : stripCL line ≠ [] ∧ stripCL line ∉ seen
    · rw [if_pos hc]
      obtain ⟨ihnd, ihmem⟩ := ih (stripCL line :: seen)
      constructor
      · refine List.nodup_cons.2 ⟨fun hmem => ?_, ihnd⟩
        exact (ihmem _ hmem).1 (by simp)
      · intro l hl
        rcases List.mem_cons.1 hl with h | h
        · subst h
          exact ⟨hc.2, hc.1, line, by simp, rfl⟩
        · obtain ⟨hnotin, hne, l₀, hl₀, hstr⟩ := ihmem l h
          exact ⟨fun hs => hnotin (List.mem_cons_of_mem _ hs), hne, l₀,
            List.mem_cons_of_mem _ hl₀, hstr⟩
    · rw [if_neg hc]
      obtain ⟨ihnd, ihmem⟩ := ih seen
      refine ⟨ihnd, fun l hl => ?_⟩
      obtain ⟨hni, hne, l₀, hl₀, hstr⟩ := ihmem l hl
      exact ⟨hni, hne, l₀, List.mem_cons_of_mem _ hl₀, hstr⟩

/-- `dedupLines` fixes a list of stripped, non-empty, pairwise-distinct
lines none of which was seen. -/
theorem dedupLines_stable (rest : List (List Char)) :
    ∀ seen, (∀ l ∈ rest, stripCL l = l ∧ l ≠ []) → rest.Nodup →
      (∀ l ∈ rest, l ∉ seen) → dedupLines seen rest = rest := by
  induction rest with
  | nil => intro seen _ _ _; rfl
  | cons line rs ih =>
    intro seen hprops hnd hseen
    simp only [dedupLines]
    have h1 := hprops line (by simp)
    rw [h1.1, if_pos ⟨h1.2, hseen line (by simp)⟩]
    congr 1
    apply ih (line :: seen) (fun l hl => hprops l (List.mem_cons_of_mem _ hl))
      (List.nodup_cons.1 hnd).2
    intro l hl
    intro hmem
    rcases List.mem_cons.1 hmem with heq | hmem2
    · exact (List.nodup_cons.1 hnd).1 (heq ▸ hl)
    · exact hseen l (List.mem_cons_of_mem _ hl) hmem2

/-- Membership of a non-newline character in a joined text. -/
theorem mem_joinNL (c : Char) (hc : ¬(c = '\n')) (ls : List (List Char)) :
    c ∈ joinNL ls ↔ ∃ l ∈ ls, c ∈ l := by
  induction ls with
  | nil => simp [joinNL]
  | cons l ms ih =>
    cases ms with
    | nil => simp [joinNL]
    | cons m ms2 =>
      show c ∈ l ++ '\n' :: joinNL (m :: ms2) ↔ _
      rw [List.mem_append, List.mem_cons]
      constructor
      · rintro (h | h | h)
        · exact ⟨l, by simp, h⟩
        · exact absurd h hc
        · obtain ⟨a, ha, hca⟩ := ih.1 h
          exact ⟨a, List.mem_cons_of_mem _ ha, hca⟩
      · rintro ⟨a, ha, hca⟩
        rcases List.mem_cons.1 ha with heq | ha2
        · exact Or.inl (heq ▸ hca)
        · exact Or.inr (Or.inr (ih.2 ⟨a, ha2, hca⟩))

/-- Post-processing a join of stripped non-empty newline-free lines, when
the idea yields no hashtags and the hashtag-stripped body keeps a question
mark: the result is exactly the hashtag-free body. -/
theorem pp_of_stripped_lines (ls : List (List Char)) (idea : List Char)
    (hprops : ∀ l ∈ ls, stripCL l = l ∧ l ≠ [] ∧ '\n' ∉ l)
    (h1 : hashtagsOf idea = [])
    (h2 : '?' ∈ joinNL (ls.filter (fun l => !startsWithHashtag l))) :
    apply_post_processingCL (joinNL ls) idea =
      joinNL (ls.filter (fun l => !startsWithHashtag l)) := by
  have hjoin_ne : joinNL ls ≠ [] := by
    cases ls with
    | nil => simp [joinNL] at h2
    | cons l ms => exact joinNL_ne_nil l ms (hprops l (by simp)).2.1
  have hsplit : splitCL (joinNL ls) = ls :=
    splitCL_joinNL ls (fun l hl => ⟨(hprops l hl).2.1, (hprops l hl).2.2⟩)
  have hbody : hashFreeBody (joinNL ls) =
      joinNL (ls.filter (fun l => !startsWithHashtag l)) := by
    rw [hashFreeBody, hsplit]
  rw [apply_post_processingCL, if_neg hjoin_ne, hbody, h1]
  rw [withHashtags, if_pos rfl, withClosing, if_pos h2]
  apply strip_joinNL
  intro l hl
  have hl2 := hprops l (List.mem_filter.1 hl).1
  exact ⟨hl2.1, hl2.2.1⟩

/-! ## Lemmas about the cache gate -/

/-- `is_cache_valid` holds exactly when an entry exists whose age in hours
is below the 24-hour TTL. -/
theorem is_cache_valid_iff {T : Type} (cache : String → Option (ℚ × T))
    (now : ℚ) (file : String) :
    is_cache_valid cache now file = true ↔
      ∃ m t, cache file = some (m, t) ∧ (now - m) / 3600 < 24 := by
  rw [is_cache_valid, get_cache_age_hours]
  cases hc : cache file with
  | none => simp
  | some mt =>
    obtain ⟨m, t⟩ := mt
    simp only [decide_eq_true_eq, Option.some.injEq, Prod.mk.injEq, CACHE_DURATION_HOURS]
    constructor
    · intro hd
      exact ⟨m, t, ⟨rfl, rfl⟩, hd⟩
    · rintro ⟨m2, t2, ⟨hm, ht⟩, hlt⟩
      rw [hm]
      exact hlt

/-- The cache-miss condition of `cache_resolve` rewrites the gate to the
rebuild branch. -/
theorem cache_resolve_miss {T : Type} (cache : String → Option (ℚ × T)) (now : ℚ)
    (file : String) (force : Bool) (rb : Except String T)
    (hmiss : force = true ∨ is_cache_valid cache now file = false) :
    cache_resolve cache now file force rb =
      match rb with
      | .error e => (.error e, cache)
      | .ok t => (.ok (t, false), fun p => if p = file then some (now, t) else cache p) := by
  rw [cache_resolve.eq_def, if_neg]
  rintro ⟨hforce, hvalid⟩
  rcases hmiss with hf | hv
  · rw [hf] at hforce; cases hforce
  · rw [hv] at hvalid; cases hvalid

/-- A valid, un-forced cache resolves to the stored payload with
`wasCached = true` and an unchanged cache directory. -/
theorem cache_resolve_hit {T : Type} (cache : String → Option (ℚ × T)) (now : ℚ)
    (file : String) (force : Bool) (rb : Except String T) (m : ℚ) (t : T)
    (hc : cache file = some (m, t)) (hforce : force = false)
    (hlt : (now - m) / 3600 < 24) :
    cache_resolve cache now file force rb = (.ok (t, true), cache) := by
  rw [cache_resolve.eq_def,
    if_pos ⟨hforce, (is_cache_valid_iff cache now file).2 ⟨m, t, hc, hlt⟩⟩, hc]

/-! ## The claims -/

/-- C2: for every profile key, the cache is treated as valid iff a persisted
entry exists, `forceRefresh` is false, and the age in hours is strictly
below the 24-hour TTL; a valid cache returns the stored payload unmodified
with `wasCached = true` and leaves the cache directory untouched; otherwise
the rebuild is triggered and, on its success, its result overwrites the
entry. The witness instantiates the hit at age 23h59m and the rebuild at
age 24h01m. -/
theorem cache_gate_validity_spec {T : Type} (cache : String → Option (ℚ × T))
    (now : ℚ) (file : String) (force : Bool) (rb : Except String T) :
    (is_cache_valid cache now file = true ↔
      ∃ m t, cache file = some (m, t) ∧ (now - m) / 3600 < 24)
    ∧ (∀ m t, cache file = some (m, t) → force = false → (now - m) / 3600 < 24 →
        cache_resolve cache now file force rb = (.ok (t, true), cache))
    ∧ ((force = true ∨ is_cache_valid cache now file = false) →
        cache_resolve cache now file force rb =
          match rb with
          | .error e => (.error e, cache)
          | .ok t => (.ok (t, false), fun p => if p = file then some (now, t) else cache p)) :=
  ⟨is_cache_valid_iff cache now file,
    fun m t hc hforce hlt => cache_resolve_hit cache now file force rb m t hc hforce hlt,
    fun hmiss => cache_resolve_miss cache now file force rb hmiss⟩

/-- Witness for C2: with an entry written at time 0, a resolve at 23h59m
(86340 s) is a cache hit returning the stored payload 42 unmodified, and a
resolve at 24h01m (86460 s) runs the rebuild and overwrites the entry. -/
theorem cache_gate_validity_spec_witness :
    cache_resolve cache₁ 86340 ("cache/jane_doe.json") false (Except.ok 7) =
      (.ok (42, true), cache₁)
    ∧ cache_resolve cache₁ 86460 ("cache/jane_doe.json") false (Except.ok 7) =
      (.ok (7, false),
        fun p => if p = "cache/jane_doe.json" then some (86460, 7) else cache₁ p) := by
  constructor
  · exact (cache_gate_validity_spec cache₁ 86340 ("cache/jane_doe.json") false
      (Except.ok 7)).2.1 0 42 (by decide) rfl (by norm_num)
  · exact (cache_gate_validity_spec cache₁ 86460 ("cache/jane_doe.json") false
      (Except.ok 7)).2.2 (Or.inr (by
        norm_num [is_cache_valid, get_cache_age_hours, cache₁, CACHE_DURATION_HOURS]))

/-- C7: when the rebuild computation fails during a cache miss (forced or
stale), `cache_resolve` propagates the failure and returns the cache
directory unchanged — the stale entry, if any, is untouched and nothing is
written. -/
theorem rebuild_failure_preserves_cache {T : Type} (cache : String → Option (ℚ × T))
    (now : ℚ) (file : String) (force : Bool) (e : String)
    (hmiss : force = true ∨ is_cache_valid cache now file = false) :
    cache_resolve cache now file force (.error e) = (.error e, cache) :=
  cache_resolve_miss cache now file force (.error e) hmiss

/-- Witness for C7: a rebuild failure at age 25h leaves the stale entry for
`Jane Doe` in place and propagates the error text. -/
theorem rebuild_failure_preserves_cache_witness :
    cache_resolve cache₁ 90000 ("cache/jane_doe.json") false (.error ("boom")) =
      (.error ("boom"), cache₁) :=
  rebuild_failure_preserves_cache cache₁ 90000 ("cache/jane_doe.json") false ("boom")
    (Or.inr (by norm_num [is_cache_valid, get_cache_age_hours, cache₁, CACHE_DURATION_HOURS]))

/-- Counterexample for C8: the refill at line 102 does not clamp a negative
elapsed interval. With rate 1, capacity 3, 2 tokens and last-refill time
100, an acquire at time 50 (clock gone backwards by 50 s) computes a refill
of min(3, 2 - 50) = -48, strictly below the 2 tokens held before — a
refill decreased the token count, contradicting the claimed clamping. -/
theorem refill_decreases_on_clock_backwards_cex :
    RateLimiter.refill ⟨1, 3, 2, 100⟩ 50 < (⟨1, 3, 2, 100⟩ : RateLimiter).tokens := by
  norm_num [RateLimiter.refill]

/-- C8 (amended): across every `acquire` call the resulting token count
stays within `[0, capacity]` (for a non-negative capacity), but negative
elapsed time is not clamped: a backwards clock step makes the refill
decrease the token count (see the counterexample); only the final count is
clamped by the `tokens < 1` branch. -/
theorem acquire_tokens_bounded (rl : RateLimiter) (now : ℚ)
    (hcap : 0 ≤ rl.capacity) :
    0 ≤ ((rl.acquire now).1).tokens ∧ ((rl.acquire now).1).tokens ≤ rl.capacity := by
  have hmin : rl.refill now ≤ rl.capacity := min_le_left _ _
  simp only [RateLimiter.acquire]
  split
  · exact ⟨le_refl 0, hcap⟩
  · rename_i h
    push_neg at h
    constructor
    · show (0 : ℚ) ≤ rl.refill now - 1
      linarith
    · show rl.refill now - 1 ≤ rl.capacity
      linarith

/-- Witness for C8 (amended): the backwards-clock acquire of the
counterexample still lands in `[0, capacity]`. -/
theorem acquire_tokens_bounded_witness :
    0 ≤ ((RateLimiter.acquire ⟨1, 3, 2, 100⟩ 50).1).tokens ∧
      ((RateLimiter.acquire ⟨1, 3, 2, 100⟩ 50).1).tokens ≤
        (⟨1, 3, 2, 100⟩ : RateLimiter).capacity :=
  acquire_tokens_bounded ⟨1, 3, 2, 100⟩ 50 (by norm_num)

/-- Counterexample for C4: a tier whose four attempts all hit transient
overload performs 4 attempts but only 1 limiter acquisition —
`limiter.acquire()` sits before the loop (line 159), not inside it. -/
theorem limiter_acquired_once_not_per_attempt_cex :
    ¬ ((generate_with_retries
        (fun _ => (AttemptResult.resourceExhausted : AttemptResult Unit))
        (fun _ => 0) 4).limiterAcquires =
      (generate_with_retries
        (fun _ => (AttemptResult.resourceExhausted : AttemptResult Unit))
        (fun _ => 0) 4).attempts) := by
  decide

/-- C4 (amended): the rate limiter is acquired exactly once per
`_generate_with_retries` call, before the attempt loop, regardless of how
many generation attempts the call performs. -/
theorem limiter_acquired_once_per_call {R : Type} (outcome : Nat → AttemptResult R)
    (rand : Nat → ℚ) (max_retries : Nat) :
    (generate_with_retries outcome rand max_retries).limiterAcquires = 1 := rfl

/-- C10: with `GEMINI_API_KEY` unset, importing `generate_posts` exits with
status 1 at load time, and so does loading the web application, which
imports it at startup — no request handler of either entry point is ever
reached. -/
theorem missing_api_key_blocks_startup (getenv : String → Option String)
    (h : getenv ("GEMINI_API_KEY") = none) :
    generate_posts_module_init getenv = .error 1 ∧
      app_module_init getenv = .error 1 := by
  have h1 : generate_posts_module_init getenv = .error 1 := by
    rw [generate_posts_module_init, h]
  exact ⟨h1, by rw [app_module_init, h1]⟩

/-- Witness for C10: the empty environment. -/
theorem missing_api_key_blocks_startup_witness :
    generate_posts_module_init (fun _ => none) = .error 1 ∧
      app_module_init (fun _ => none) = .error 1 :=
  missing_api_key_blocks_startup (fun _ => none) rfl

/-- C9: cache introspection reports `cached = true` exactly when a cache
file exists for the normalized profile key, together with its age, with no
TTL comparison: an entry older than 24 hours is still reported as cached
even though `is_cache_valid` — the gate a generation request consults — is
false for it, so the generation request would rebuild. -/
theorem cache_status_reports_existence {T : Type} (cache : String → Option (ℚ × T))
    (now : ℚ) (name : String) (h : pyStrip name ≠ "") :
    cache_status cache now name =
      .ok ((cache (get_cache_path (pyStrip name))).isSome,
        get_cache_age_hours cache now (get_cache_path (pyStrip name)))
    ∧ ∀ m t, cache (get_cache_path (pyStrip name)) = some (m, t) →
        24 < (now - m) / 3600 →
        (cache (get_cache_path (pyStrip name))).isSome = true ∧
        is_cache_valid cache now (get_cache_path (pyStrip name)) = false := by
  constructor
  · rw [cache_status, if_neg h]
    have hiso : (get_cache_age_hours cache now (get_cache_path (pyStrip name))).isSome =
        (cache (get_cache_path (pyStrip name))).isSome := by
      rw [get_cache_age_hours]
      cases cache (get_cache_path (pyStrip name)) with
      | none => rfl
      | some mt => obtain ⟨m, t⟩ := mt; rfl
    rw [hiso]
  · intro m t hc hgt
    refine ⟨by rw [hc]; rfl, ?_⟩
    rw [is_cache_valid, get_cache_age_hours, hc]
    simp only [CACHE_DURATION_HOURS, decide_eq_false_iff_not]
    linarith

/-- Witness for C9: the `Jane Doe` entry written at time 0, inspected at
time 90000 s (age 25 h): reported as cached although the validity gate is
false. -/
theorem cache_status_reports_existence_witness :
    cache_status cache₁ 90000 ("Jane Doe") =
      .ok ((cache₁ (get_cache_path (pyStrip ("Jane Doe")))).isSome,
        get_cache_age_hours cache₁ 90000 (get_cache_path (pyStrip ("Jane Doe"))))
    ∧ is_cache_valid cache₁ 90000 (get_cache_path (pyStrip ("Jane Doe"))) = false := by
  have h := cache_status_reports_existence cache₁ 90000 ("Jane Doe") (by decide)
  exact ⟨h.1, (h.2 0 42 (by decide) (by norm_num)).2⟩

/-- C1 (code bug): for every request whose three trimmed fields are
non-empty, the `/api/generate` handler never returns a success reply: both
the rebuild path (`train_model.train`, line 143) and the post-generation
step (`generate_posts.create_post`, line 148) reference attributes that do
not exist, so every such request raises `AttributeError` and is answered
with a 500 failure. Moreover the `meta` dict the success path would have
built (lines 149-153) uses the key `generation_time`, not the
`generation_time_seconds` the claim names. -/
theorem generate_requests_always_fail {P T : Type} (env : GenEnv P T)
    (profileUrl profileName criteria : String) (forceRefresh : Bool)
    (h1 : pyStrip profileUrl ≠ "") (h2 : pyStrip profileName ≠ "")
    (h3 : pyStrip criteria ≠ "") :
    ((generate env profileUrl profileName criteria forceRefresh).1).isOk = false ∧
    meta_keys ≠ ["used_cache", "cache_age_hours", "generation_time_seconds"] := by
  refine ⟨?_, by decide⟩
  rw [generate.eq_def, if_neg (by simp [h1, h2, h3])]
  cases hcr : cache_resolve env.cache env.now (get_cache_path (pyStrip profileName))
      forceRefresh (generate_rebuild env (pyStrip profileUrl)) with
  | mk r c => cases r <;> rfl

/-- Witness for C1: a well-formed request against an empty cache with
succeeding scraper and index builder still yields a failure reply. -/
theorem generate_requests_always_fail_witness :
    ((generate env₀ ("http://u") ("Jane Doe") ("ai growth") false).1).isOk = false ∧
    meta_keys ≠ ["used_cache", "cache_age_hours", "generation_time_seconds"] :=
  generate_requests_always_fail env₀ ("http://u") ("Jane Doe") ("ai growth") false
    (by decide) (by decide) (by decide)

/-- The backoff list spelled as a `range`-map. -/
theorem sleepList_eq_range_map (rand : Nat → ℚ) :
    ∀ n i, sleepList rand i n =
      (List.range n).map (fun j => (2 : ℚ) ^ (i + j) + rand (i + j)) := by
  intro n
  induction n with
  | zero => intro i; rfl
  | succ n ih =>
    intro i
    have htail : (List.range n).map (fun j => (2 : ℚ) ^ ((i + 1) + j) + rand ((i + 1) + j)) =
        (List.range n).map ((fun j => (2 : ℚ) ^ (i + j) + rand (i + j)) ∘ Nat.succ) := by
      apply List.map_congr_left
      intro a _
      show (2 : ℚ) ^ ((i + 1) + a) + rand ((i + 1) + a) =
        (2 : ℚ) ^ (i + (a + 1)) + rand (i + (a + 1))
      rw [show (i + 1) + a = i + (a + 1) from by omega]
    rw [List.range_succ_eq_map, List.map_cons, List.map_map]
    show ((2 : ℚ) ^ i + rand i) :: sleepList rand (i + 1) n = _
    rw [ih (i + 1), htail]
    simp

/-- Length of the backoff list. -/
theorem sleepList_length (rand : Nat → ℚ) :
    ∀ n i, (sleepList rand i n).length = n := by
  intro n
  induction n with
  | zero => intro i; rfl
  | succ n ih => intro i; simp [sleepList, ih (i + 1)]

/-- An all-transient tier runs the loop to exhaustion: `n` attempts, no
result, one backoff sleep after every attempt. -/
theorem retryLoop_transient {R : Type} (outcome : Nat → AttemptResult R)
    (rand : Nat → ℚ) (h : ∀ j, isTransient (outcome j) = true) :
    ∀ n i, retryLoop outcome rand n i = (none, n, sleepList rand i n) := by
  intro n
  induction n with
  | zero => intro i; rfl
  | succ n ih =>
    intro i
    have ht := h i
    cases hoc : outcome i with
    | success r => rw [hoc] at ht; simp [isTransient] at ht
    | permanent e => rw [hoc] at ht; simp [isTransient] at ht
    | resourceExhausted =>
      simp only [retryLoop, hoc]
      rw [ih (i + 1)]
      rfl
    | tooManyRequests =>
      simp only [retryLoop, hoc]
      rw [ih (i + 1)]
      rfl

/-- A non-transient error at attempt `k` (after `k` transient failures)
breaks the loop: `k + 1` attempts, no result, `k` sleeps. -/
theorem retryLoop_permanent {R : Type} (outcome : Nat → AttemptResult R)
    (rand : Nat → ℚ) :
    ∀ k n i e, (∀ j, j < k → isTransient (outcome (i + j)) = true) →
      outcome (i + k) = AttemptResult.permanent e → k < n →
      retryLoop outcome rand n i = (none, k + 1, sleepList rand i k) := by
  intro k
  induction k with
  | zero =>
    intro n i e _ hout hlt
    cases n with
    | zero => omega
    | succ n =>
      have hi : outcome i = AttemptResult.permanent e := by simpa using hout
      simp only [retryLoop, hi]
      rfl
  | succ k ih =>
    intro n i e htrans hout hlt
    cases n with
    | zero => omega
    | succ n =>
      have ht0 : isTransient (outcome i) = true := by simpa using htrans 0 (by omega)
      have hnext : ∀ j, j < k → isTransient (outcome ((i + 1) + j)) = true := by
        intro j hj
        have := htrans (j + 1) (by omega)
        rwa [show i + (j + 1) = (i + 1) + j from by omega] at this
      have hout2 : outcome ((i + 1) + k) = AttemptResult.permanent e := by
        rwa [show i + (k + 1) = (i + 1) + k from by omega] at hout
      cases hoc : outcome i with
      | success r => rw [hoc] at ht0; simp [isTransient] at ht0
      | permanent e2 => rw [hoc] at ht0; simp [isTransient] at ht0
      | resourceExhausted =>
        simp only [retryLoop, hoc]
        rw [ih n (i + 1) e hnext hout2 (by omega)]
        rfl
      | tooManyRequests =>
        simp only [retryLoop, hoc]
        rw [ih n (i + 1) e hnext hout2 (by omega)]
        rfl

/-- C3: against a tier whose every attempt raises a transient-overload
error, `_generate_with_retries` makes exactly `max_retries` attempts
(default 4), sleeps `2^attempt + jitter` with jitter in `[0, 1)` after each
transient failure, and then reports failure (`None`) — no unbounded loop;
while a non-transient error at some attempt aborts the tier immediately:
no further attempts follow it. -/
theorem retry_bound_spec {R : Type} (outcome : Nat → AttemptResult R)
    (rand : Nat → ℚ) (mr : Nat) (hrand : ∀ j, 0 ≤ rand j ∧ rand j < 1) :
    ((∀ j, isTransient (outcome j) = true) →
      (generate_with_retries outcome rand mr).attempts = mr ∧
      (generate_with_retries outcome rand mr).result = none ∧
      (generate_with_retries outcome rand mr).sleeps =
        (List.range mr).map (fun j => (2 : ℚ) ^ j + rand j) ∧
      ∀ s ∈ (generate_with_retries outcome rand mr).sleeps,
        ∃ j, s = (2 : ℚ) ^ j + rand j ∧ (2 : ℚ) ^ j ≤ s ∧ s < (2 : ℚ) ^ j + 1)
    ∧ ∀ k e, (∀ j, j < k → isTransient (outcome j) = true) →
        outcome k = AttemptResult.permanent e → k < mr →
        (generate_with_retries outcome rand mr).attempts = k + 1 ∧
        (generate_with_retries outcome rand mr).result = none ∧
        (generate_with_retries outcome rand mr).sleeps.length = k := by
  constructor
  · intro htrans
    have hloop := retryLoop_transient outcome rand htrans mr 0
    have hsl : sleepList rand 0 mr = (List.range mr).map (fun j => (2 : ℚ) ^ j + rand j) := by
      rw [sleepList_eq_range_map rand mr 0]
      simp
    refine ⟨by simp [generate_with_retries, hloop], by simp [generate_with_retries, hloop],
      by simp [generate_with_retries, hloop, hsl], ?_⟩
    intro s hs
    simp only [generate_with_retries, hloop, hsl] at hs
    obtain ⟨j, _, rfl⟩ := List.mem_map.1 hs
    exact ⟨j, rfl, by linarith [(hrand j).1], by linarith [(hrand j).2]⟩
  · intro k e htr hout hlt
    have hloop := retryLoop_permanent outcome rand k mr 0 e
      (fun j hj => by simpa using htr j hj) (by simpa using hout) hlt
    exact ⟨by simp [generate_with_retries, hloop],
      by simp [generate_with_retries, hloop],
      by simp [generate_with_retries, hloop, sleepList_length]⟩

/-- Witness for C3: four resource-exhausted attempts with jitter 1/2 give
exactly 4 attempts and a `None` result. -/
theorem retry_bound_spec_witness :
    (generate_with_retries (fun _ => (AttemptResult.resourceExhausted : AttemptResult Nat))
      (fun _ => (1 : ℚ) / 2) 4).attempts = 4 ∧
    (generate_with_retries (fun _ => (AttemptResult.resourceExhausted : AttemptResult Nat))
      (fun _ => (1 : ℚ) / 2) 4).result = none := by
  have h := (retry_bound_spec (fun _ => (AttemptResult.resourceExhausted : AttemptResult Nat))
    (fun _ => (1 : ℚ) / 2) 4 (fun j => by norm_num)).1 (fun j => rfl)
  exact ⟨h.1, h.2.1⟩

/-- Counterexample for C6: the empty input. `apply_post_processing` returns
an empty post unchanged (lines 174-175), so the normalized empty text
contains no question mark. -/
theorem normalize_question_mark_cex :
    ¬ ('?' ∈ (normalize_post ("") ("great things")).data) := by decide

/-- C6 (amended): for every input whose deduplicated text is non-empty, the
output of `PostNormalizer.normalize` contains a `?` character — either
carried over or appended as the fixed closing prompt; only the empty post
(guarded at lines 174-175) escapes with no `?`. -/
theorem normalize_contains_question_mark (x idea : String)
    (h : deduplicate_text x ≠ "") : '?' ∈ (normalize_post x idea).data := by
  have hd : deduplicate_textCL x.data ≠ [] := by
    intro h0
    apply h
    show (⟨deduplicate_textCL x.data⟩ : String) = ""
    rw [h0]
  show '?' ∈ normalizeCL x.data idea.data
  rw [normalizeCL, apply_post_processingCL, if_neg hd]
  apply mem_stripCL '?' _ (by decide)
  rw [withClosing]
  by_cases hq : '?' ∈ withHashtags (hashFreeBody (deduplicate_textCL x.data))
      (hashtagsOf idea.data)
  · rw [if_pos hq]
    exact hq
  · rw [if_neg hq]
    exact List.mem_append.2 (Or.inr (by decide))

/-- Witness for C6 (amended): a plain non-empty input. -/
theorem normalize_contains_question_mark_witness :
    deduplicate_text ("hi") ≠ "" ∧ '?' ∈ (normalize_post ("hi") ("great things")).data :=
  ⟨by decide, normalize_contains_question_mark ("hi") ("great things") (by decide)⟩

/-- Counterexample for C5: normalization is not idempotent. On input
`"Hello world"` with idea `"great things"`, the first pass appends the
hashtag line and then the closing prompt; the second pass collapses the
blank separator lines, strips the hashtag line and re-appends it after the
closing prompt, producing a different text. -/
theorem normalize_not_idempotent_cex :
    normalize_post (normalize_post ("Hello world") ("great things")) ("great things") ≠
      normalize_post ("Hello world") ("great things") := by decide

/-- C5 (amended): normalization is idempotent whenever its appends cannot
reorder anything — when the idea text yields no keyword hashtags and the
deduplicated, hashtag-stripped body already contains a `?` (so neither the
hashtag line nor the closing prompt is appended). In general idempotence
fails: see the counterexample, where the second pass collapses the blank
separator lines and moves the hashtag line after the closing prompt. -/
theorem normalize_idempotent_of_no_hashtag_append (x idea : String)
    (h1 : hashtagsOf idea.data = [])
    (h2 : '?' ∈ hashFreeBody (deduplicate_text x).data) :
    normalize_post (normalize_post x idea) idea = normalize_post x idea := by
  obtain ⟨hnd, hmem⟩ := dedupLines_spec (splitCL x.data) []
  have hprops : ∀ l ∈ dedupLines [] (splitCL x.data),
      stripCL l = l ∧ l ≠ [] ∧ '\n' ∉ l := by
    intro l hl
    obtain ⟨-, hne, l₀, hl₀, hstr⟩ := hmem l hl
    subst hstr
    refine ⟨stripCL_idem l₀, hne, fun hmemnl => ?_⟩
    exact splitCL_no_newline x.data l₀ hl₀ ((stripCL_sublist l₀).subset hmemnl)
  have hd : deduplicate_textCL x.data = joinNL (dedupLines [] (splitCL x.data)) := by
    rw [deduplicate_textCL]
    exact strip_joinNL _ (fun l hl => ⟨(hprops l hl).1, (hprops l hl).2.1⟩)
  have hsplit : splitCL (joinNL (dedupLines [] (splitCL x.data))) =
      dedupLines [] (splitCL x.data) :=
    splitCL_joinNL _ (fun l hl => ⟨(hprops l hl).2.1, (hprops l hl).2.2⟩)
  have h2a : '?' ∈ joinNL
      ((dedupLines [] (splitCL x.data)).filter (fun l => !startsWithHashtag l)) := by
    have h2c : '?' ∈ hashFreeBody (deduplicate_textCL x.data) := h2
    rw [hd, hashFreeBody, hsplit] at h2c
    exact h2c
  have hNx : normalizeCL x.data idea.data =
      joinNL ((dedupLines [] (splitCL x.data)).filter (fun l => !startsWithHashtag l)) := by
    rw [normalizeCL, hd]
    exact pp_of_stripped_lines _ idea.data hprops h1 h2a
  have hfprops : ∀ l ∈ (dedupLines [] (splitCL x.data)).filter
      (fun l => !startsWithHashtag l), stripCL l = l ∧ l ≠ [] ∧ '\n' ∉ l :=
    fun l hl => hprops l (List.mem_filter.1 hl).1
  have hfnd : ((dedupLines [] (splitCL x.data)).filter
      (fun l => !startsWithHashtag l)).Nodup := hnd.filter _
  have hfilter2 : ((dedupLines [] (splitCL x.data)).filter
        (fun l => !startsWithHashtag l)).filter (fun l => !startsWithHashtag l) =
      (dedupLines [] (splitCL x.data)).filter (fun l => !startsWithHashtag l) :=
    List.filter_eq_self.2 (fun l hl => (List.mem_filter.1 hl).2)
  have hsplit2 : splitCL (joinNL ((dedupLines [] (splitCL x.data)).filter
        (fun l => !startsWithHashtag l))) =
      (dedupLines [] (splitCL x.data)).filter (fun l => !startsWithHashtag l) :=
    splitCL_joinNL _ (fun l hl => ⟨(hfprops l hl).2.1, (hfprops l hl).2.2⟩)
  have hded2 : dedupLines [] ((dedupLines [] (splitCL x.data)).filter
        (fun l => !startsWithHashtag l)) =
      (dedupLines [] (splitCL x.data)).filter (fun l => !startsWithHashtag l) :=
    dedupLines_stable _ [] (fun l hl => ⟨(hfprops l hl).1, (hfprops l hl).2.1⟩)
      hfnd (by simp)
  have hd2 : deduplicate_textCL (joinNL ((dedupLines [] (splitCL x.data)).filter
        (fun l => !startsWithHashtag l))) =
      joinNL ((dedupLines [] (splitCL x.data)).filter (fun l => !startsWithHashtag l)) := by
    rw [deduplicate_textCL, hsplit2, hded2]
    exact strip_joinNL _ (fun l hl => ⟨(hfprops l hl).1, (hfprops l hl).2.1⟩)
  have h2b : '?' ∈ joinNL (((dedupLines [] (splitCL x.data)).filter
      (fun l => !startsWithHashtag l)).filter (fun l => !startsWithHashtag l)) := by
    rw [hfilter2]
    exact h2a
  have hNNx : normalizeCL (joinNL ((dedupLines [] (splitCL x.data)).filter
        (fun l => !startsWithHashtag l))) idea.data =
      joinNL ((dedupLines [] (splitCL x.data)).filter (fun l => !startsWithHashtag l)) := by
    rw [normalizeCL, hd2]
    have hpp := pp_of_stripped_lines _ idea.data hfprops h1 h2b
    rw [hfilter2] at hpp
    exact hpp
  have hcl : normalizeCL (normalizeCL x.data idea.data) idea.data =
      normalizeCL x.data idea.data := by
    rw [hNx]
    exact hNNx
  exact congrArg String.mk hcl

/-- Witness for C5 (amended): idea `"a big cat"` (no word longer than three
characters) and an input already carrying a question mark. -/
theorem normalize_idempotent_of_no_hashtag_append_witness :
    hashtagsOf ("a big cat").data = [] ∧
    '?' ∈ hashFreeBody (deduplicate_text ("Is this ok?\nsure")).data ∧
    normalize_post (normalize_post ("Is this ok?\nsure") ("a big cat")) ("a big cat") =
      normalize_post ("Is this ok?\nsure") ("a big cat") :=
  ⟨by decide, by decide,
    normalize_idempotent_of_no_hashtag_append ("Is this ok?\nsure") ("a big cat")
      (by decide) (by decide)⟩
